import Mathlib

/-!
Verification development for the Cashu mint-side ledger.

Shallow embedding of the repository's Python source:
* `cashu/mint/verification.py` — input/output validation, fee and balance checks
* `cashu/core/b_dhke.py` and `cashu/core/crypto/b_dhke.py` — blind signatures, DLEQ
* `cashu/lightning/blink.py` — Blink Lightning backend `pay_invoice`
* `cashu/mint/events/events.py` — event-bus subscriber management
* `cashu/mint/lightning.py` against `cashu/mint/crud.py` — keyword-argument binding
* `cashu/core/helpers.py` (not in the tree; modelled from the spec and
  `tests/test_core.py`) — blank-output count

Python's exception control flow is embedded as `Except`: a raised exception is
an `Except.error`, a normal return is `Except.ok`.  Machine integers do not
occur (Python ints are unbounded); amounts are `Int`, configuration limits are
parameters (`cashu/core/settings.py` is not in the tree).
-/

/-- Errors raised by the verification code (`cashu/core/errors.py` names;
the module itself is not in the tree, only the constructors used by
`verification.py`, `lightning.py` and `events.py`). `keyError` and
`typeError` stand for the Python builtin exceptions of the same name. -/
inductive Err where
  | transactionError (msg : String)
  | transactionUnitError (msg : String)
  | notAllowedError
  | noSecretInProofsError
  | secretTooLongError
  | lightningError (msg : String)
  | invoiceNotPaidError
  | keyError
  | typeError
  | valueError
  | assertionError (msg : String)
  deriving DecidableEq, Repr

/-- `Proof` (`cashu/core/base.py`): the fields used by the mint's
verification code. `secret` is `Option String` because the Python field is
`None`-able for old clients (`_verify_secret_criteria` checks `is None`). -/
structure Proof where
  id : String
  amount : Int
  secret : Option String
  C : String
  deriving DecidableEq, Repr

/-- `BlindedMessage` (`cashu/core/base.py`): an output to be signed.
`verification.py` reads `o.amount`, `o.id` and `o.B_`. -/
structure BlindedMessage where
  amount : Int
  id : String
  B_ : String
  deriving DecidableEq, Repr

/-- The per-keyset data read by `verification.py` from `MintKeyset`
(`cashu/core/base.py`): the accounting unit, the parts-per-thousand input
fee, and the activation flag. -/
structure KeysetInfo where
  unit : String
  input_fee_ppk : Int
  active : Bool
  deriving DecidableEq, Repr

/-- The mint's keyset table `self.keysets : Dict[str, MintKeyset]`,
embedded as an association list. -/
def Keysets := List (String × KeysetInfo)

/-- `self.keysets[id]`: Python dict subscription raises `KeyError` when the
id is absent. -/
def Keysets.find (ks : Keysets) (id : String) : Except Err KeysetInfo :=
  match List.lookup id ks with
  | some k => .ok k
  | none => .error .keyError

/-- Evaluate `f` over a list, stopping at the first raised exception — the
semantics of a Python list comprehension whose body may raise. -/
def mapE {α β : Type} (f : α → Except Err β) : List α → Except Err (List β)
  | [] => .ok []
  | a :: as =>
    match f a with
    | .error e => .error e
    | .ok b =>
      match mapE f as with
      | .error e => .error e
      | .ok bs => .ok (b :: bs)

/-- `LedgerVerification._verify_amount` (`cashu/mint/verification.py`):
an amount is valid iff `amount > 0 and amount < 2**settings.max_order`;
otherwise `NotAllowedError` is raised.  Returns the amount itself on
success, as the source does. -/
def verify_amount (maxOrder : Nat) (amount : Int) : Except Err Int :=
  if 0 < amount ∧ amount < 2 ^ maxOrder then .ok amount else .error .notAllowedError

/-- `LedgerVerification._verify_secret_criteria`
(`cashu/mint/verification.py`): raise `NoSecretInProofsError` when the
secret is `None` or empty, `SecretTooLongError` when its length exceeds
`settings.mint_max_secret_length`, and return `True` otherwise. -/
def verify_secret_criteria (maxSecretLength : Nat) (proof : Proof) : Except Err Bool :=
  match proof.secret with
  | none => .error .noSecretInProofsError
  | some s =>
    if s = "" then .error .noSecretInProofsError
    else if s.length > maxSecretLength then .error .secretTooLongError
    else .ok true

@[simp] theorem isOk_ok {β : Type} (b : β) : (Except.ok b : Except Err β).isOk = true := rfl

@[simp] theorem isOk_error {β : Type} (e : Err) : (Except.error e : Except Err β).isOk = false := rfl

/-- C6: `verify_amount` accepts exactly the amounts in `(0, 2^MAX_ORDER)`. -/
theorem verify_amount_iff (maxOrder : Nat) (amount : Int) :
    ((verify_amount maxOrder amount).isOk ↔ 0 < amount ∧ amount < 2 ^ maxOrder) ∧
    verify_amount maxOrder 0 = .error .notAllowedError ∧
    (∀ a : Int, 2 ^ maxOrder ≤ a → verify_amount maxOrder a = .error .notAllowedError) := by
  refine ⟨?_, ?_, ?_⟩
  · unfold verify_amount
    by_cases h : 0 < amount ∧ amount < 2 ^ maxOrder <;> simp [h]
  · unfold verify_amount
    simp
  · intro a ha
    unfold verify_amount
    have : ¬ (0 < a ∧ a < 2 ^ maxOrder) := by
      rintro ⟨-, h2⟩; exact absurd (lt_of_le_of_lt ha h2) (lt_irrefl _)
    simp [this]

/-- C6 witness: at `MAX_ORDER = 64`, the amount `2^64` is rejected. -/
theorem verify_amount_iff_witness :
    verify_amount 64 (2 ^ 64) = .error .notAllowedError :=
  (verify_amount_iff 64 1).2.2 (2 ^ 64) (le_refl _)

/-- C7: `verify_secret_criteria` accepts a proof iff its secret is present,
non-empty and no longer than `MAX_SECRET_LEN`; a missing or empty secret
raises the no-secret error, and an over-long secret raises the
secret-too-long error. -/
theorem verify_secret_criteria_iff (maxSecretLength : Nat) (proof : Proof) :
    ((verify_secret_criteria maxSecretLength proof).isOk ↔
      ∃ s, proof.secret = some s ∧ s ≠ "" ∧ s.length ≤ maxSecretLength) ∧
    (verify_secret_criteria maxSecretLength proof = .error .noSecretInProofsError ↔
      proof.secret = none ∨ proof.secret = some "") ∧
    (verify_secret_criteria maxSecretLength proof = .error .secretTooLongError ↔
      ∃ s, proof.secret = some s ∧ s ≠ "" ∧ s.length > maxSecretLength) := by
  unfold verify_secret_criteria
  rcases hsec : proof.secret with - | s
  · simp [hsec]
  · dsimp only
    by_cases h0 : s = ""
    · subst h0; simp
    · by_cases hl : s.length > maxSecretLength
      · simp only [if_neg h0, if_pos hl]
        refine ⟨?_, by simp [h0], ?_⟩
        · simp only [isOk_error, Bool.false_eq_true, false_iff]
          rintro ⟨t, ht, -, hlen⟩
          cases ht
          exact absurd hl (not_lt.mpr hlen)
        · exact iff_of_true trivial ⟨s, rfl, h0, hl⟩
      · simp only [if_neg h0, if_neg hl]
        refine ⟨?_, by simp [h0], ?_⟩
        · simp only [isOk_ok, true_iff]
          exact ⟨s, rfl, h0, le_of_not_lt hl⟩
        · constructor
          · intro h; cases h
          · rintro ⟨t, ht, -, hlen⟩
            cases ht
            exact absurd hlen hl

/-- `LedgerVerification._verify_no_duplicate_outputs`
(`cashu/mint/verification.py`): collect the `B_` fields and compare the
count of distinct values (`len(list(set(B_s)))`, embedded as the length of
`List.dedup`) with the list length. -/
def verify_no_duplicate_outputs (outputs : List BlindedMessage) : Bool :=
  let B_s := outputs.map (fun o => o.B_)
  B_s.dedup.length == B_s.length

/-- `LedgerVerification._check_outputs_issued_before`
(`cashu/mint/verification.py`): for each output, whether a promise for its
`B_` is already stored.  The issued-signature ledger (`crud.get_promises`
over the `promises` table) is embedded as the list of `B_` values that
have a stored promise. -/
def check_outputs_issued_before (issued : List String) (outputs : List BlindedMessage) :
    List Bool :=
  outputs.map (fun o => issued.contains o.B_)

/-- `LedgerVerification._verify_outputs` (`cashu/mint/verification.py`)
with `skip_amount_check=False` (the swap/mint path): outputs non-empty,
all sharing the keyset id of the first output, that keyset known and
active, every amount accepted by `_verify_amount`, no duplicate `B_`, and
no `B_` signed before. -/
def verify_outputs (maxOrder : Nat) (keysets : Keysets) (issued : List String)
    (outputs : List BlindedMessage) : Except Err Unit :=
  match outputs with
  | [] => .error (.transactionError "no outputs provided.")
  | o0 :: _ =>
    if outputs.all (fun o => o.id == o0.id) then
      match List.lookup o0.id keysets with
      | none => .error (.transactionError "keyset id unknown.")
      | some ks =>
        if ks.active then
          match mapE (fun o => verify_amount maxOrder o.amount) outputs with
          | .error e => .error e
          | .ok _ =>
            if verify_no_duplicate_outputs outputs then
              if (check_outputs_issued_before issued outputs).any (fun b => b) then
                .error (.transactionError "outputs have already been signed before.")
              else .ok ()
            else .error (.transactionError "duplicate outputs.")
        else .error (.transactionError "keyset id inactive.")
    else .error (.transactionError "outputs have different keyset ids.")

/-- `LedgerVerification._verify_units_match` (`cashu/mint/verification.py`):
collect the units of all input keysets and of all output keysets (skipping
outputs with a falsy id), require each collection to have exactly one
distinct value, and require the two values to agree. -/
def verify_units_match (keysets : Keysets) (proofs : List Proof)
    (outs : List BlindedMessage) : Except Err String :=
  match mapE (fun p => (keysets.find p.id).map (fun k => k.unit)) proofs with
  | .error e => .error e
  | .ok unitsProofs =>
    match mapE (fun o => (keysets.find o.id).map (fun k => k.unit))
        (outs.filter (fun o => o.id ≠ "")) with
    | .error e => .error e
    | .ok unitsOutputs =>
      if unitsProofs.dedup.length = 1 then
        if unitsOutputs.dedup.length = 1 then
          if unitsProofs.head? = unitsOutputs.head? then .ok (unitsProofs.headD "")
          else .error (.transactionUnitError "input and output keysets have different units.")
        else .error (.transactionUnitError "outputs have different units.")
      else .error (.transactionUnitError "inputs have different units.")

/-- `LedgerVerification.get_fees_for_proofs` (`cashu/mint/verification.py`):
require one distinct input unit, then
`fee = (sum(input_fee_ppk) + 999) // 1000` — Python `//` is floor
division, embedded as `Int.fdiv`. -/
def get_fees_for_proofs (keysets : Keysets) (proofs : List Proof) : Except Err Int :=
  match mapE (fun p => keysets.find p.id) proofs with
  | .error e => .error e
  | .ok infos =>
    if (infos.map (fun k => k.unit)).dedup.length = 1 then
      .ok (Int.fdiv ((infos.map (fun k => k.input_fee_ppk)).sum + 999) 1000)
    else .error (.transactionUnitError "inputs have different units.")

/-- `LedgerVerification._verify_equation_balanced`
(`cashu/mint/verification.py`): non-empty proofs and outputs, units match,
`sum_inputs` and `sum_outputs` via `_verify_amount`, fees via
`get_fees_for_proofs`, then require
`sum_outputs + fees_inputs - sum_inputs == 0`. -/
def verify_equation_balanced (maxOrder : Nat) (keysets : Keysets)
    (proofs : List Proof) (outs : List BlindedMessage) : Except Err Unit :=
  if proofs.isEmpty then .error (.transactionError "no proofs provided.")
  else if outs.isEmpty then .error (.transactionError "no outputs provided.")
  else
    match verify_units_match keysets proofs outs with
    | .error e => .error e
    | .ok _ =>
      match mapE (fun p => verify_amount maxOrder p.amount) proofs with
      | .error e => .error e
      | .ok ins =>
        match get_fees_for_proofs keysets proofs with
        | .error e => .error e
        | .ok fees =>
          match mapE (fun o => verify_amount maxOrder o.amount) outs with
          | .error e => .error e
          | .ok outAmts =>
            if outAmts.sum + fees - ins.sum = 0 then .ok ()
            else .error (.transactionError "not balanced.")

/-- The fee formula in the spec's words: the ceiling of the summed
parts-per-thousand fees divided by 1000 (`fees(inputs) =
ceil(Σ keyset.input_fee_ppk[kid(p)] / 1000)`), stated with the rational
ceiling.  Kept separate from `get_fees_for_proofs` so the two can be
compared. -/
def fees_spec (keysets : Keysets) (proofs : List Proof) : Int :=
  let s : Int := (proofs.map (fun p =>
      ((List.lookup p.id keysets).map (fun k => k.input_fee_ppk)).getD 0)).sum
  ⌈((s : ℚ) / 1000)⌉

theorem mapE_ok_iff {α β : Type} (f : α → Except Err β) (l : List α) :
    (mapE f l).isOk = true ↔ ∀ a ∈ l, (f a).isOk = true := by
  induction l with
  | nil => simp [mapE]
  | cons a as ih =>
    rw [mapE]
    cases hf : f a with
    | error e =>
      apply iff_of_false (by simp)
      intro h
      have ha := h a (List.mem_cons_self a as)
      rw [hf] at ha
      exact absurd ha (by simp)
    | ok b =>
      cases hm : mapE f as with
      | error e =>
        apply iff_of_false (by simp)
        intro h
        have has : (mapE f as).isOk = true :=
          ih.mpr (fun x hx => h x (List.mem_cons_of_mem a hx))
        rw [hm] at has
        exact absurd has (by simp)
      | ok bs =>
        apply iff_of_true (by simp)
        intro x hx
        rcases List.mem_cons.mp hx with h1 | h2
        · rw [h1, hf]; simp
        · exact ih.mp (by rw [hm]; simp) x h2

theorem verify_amount_ok_value {maxOrder : Nat} {x v : Int}
    (h : verify_amount maxOrder x = .ok v) : v = x := by
  unfold verify_amount at h
  split at h
  · cases h; rfl
  · cases h

theorem mapE_verify_amount {maxOrder : Nat} {α : Type} (g : α → Int) (l : List α)
    (vs : List Int) (h : mapE (fun a => verify_amount maxOrder (g a)) l = .ok vs) :
    vs = l.map g := by
  induction l generalizing vs with
  | nil =>
    rw [mapE] at h
    cases h
    rfl
  | cons a as ih =>
    rw [mapE] at h
    cases hf : verify_amount maxOrder (g a) with
    | error e => rw [hf] at h; cases h
    | ok b =>
      rw [hf] at h
      cases hm : mapE (fun a => verify_amount maxOrder (g a)) as with
      | error e => rw [hm] at h; cases h
      | ok bs =>
        rw [hm] at h
        cases h
        rw [List.map_cons, verify_amount_ok_value hf, ih bs hm]

theorem dedup_length_beq_iff {α : Type} [DecidableEq α] {l : List α} :
    (l.dedup.length == l.length) = true ↔ l.Nodup := by
  rw [beq_iff_eq]
  constructor
  · intro h
    rw [← (l.dedup_sublist).eq_of_length h]
    exact l.nodup_dedup
  · intro h
    rw [h.dedup]

theorem mapE_find_map {ks : Keysets} {proofs : List Proof} {infos : List KeysetInfo}
    {β : Type} (g : KeysetInfo → β) (d : β)
    (h : mapE (fun p => Keysets.find ks p.id) proofs = .ok infos) :
    infos.map g = proofs.map (fun p => ((List.lookup p.id ks).map g).getD d) := by
  induction proofs generalizing infos with
  | nil =>
    rw [mapE] at h
    cases h
    rfl
  | cons p ps ih =>
    rw [mapE] at h
    cases hf : Keysets.find ks p.id with
    | error e => rw [hf] at h; cases h
    | ok k =>
      rw [hf] at h
      cases hm : mapE (fun p => Keysets.find ks p.id) ps with
      | error e => rw [hm] at h; cases h
      | ok ks' =>
        rw [hm] at h
        cases h
        unfold Keysets.find at hf
        cases hl : List.lookup p.id ks with
        | none => rw [hl] at hf; cases hf
        | some k' =>
          rw [hl] at hf
          cases hf
          rw [List.map_cons, List.map_cons, hl, ih hm]
          rfl

theorem fdiv_add_999_eq_ceil (s : Int) :
    Int.fdiv (s + 999) 1000 = ⌈((s : ℚ) / 1000)⌉ := by
  rw [Int.fdiv_eq_ediv _ (by norm_num)]
  symm
  rw [Int.ceil_eq_iff]
  constructor
  · rw [show ((((s + 999) / 1000 : Int) : ℚ) - 1) = (((s + 999) / 1000 - 1 : Int) : ℚ) by
      push_cast; ring]
    rw [lt_div_iff₀ (by norm_num : (0 : ℚ) < 1000)]
    have h : ((s + 999) / 1000 - 1 : Int) * 1000 < s := by omega
    exact_mod_cast h
  · rw [div_le_iff₀ (by norm_num : (0 : ℚ) < 1000)]
    have h : s ≤ ((s + 999) / 1000 : Int) * 1000 := by omega
    exact_mod_cast h

theorem get_fees_ok {keysets : Keysets} {proofs : List Proof} {fee : Int}
    (h : get_fees_for_proofs keysets proofs = .ok fee) :
    fee = fees_spec keysets proofs := by
  unfold get_fees_for_proofs at h
  cases hm : mapE (fun p => Keysets.find keysets p.id) proofs with
  | error e => rw [hm] at h; cases h
  | ok infos =>
    rw [hm] at h
    dsimp only at h
    by_cases hc : (infos.map (fun k => k.unit)).dedup.length = 1
    · rw [if_pos hc] at h
      cases h
      unfold fees_spec
      rw [← mapE_find_map (fun k => k.input_fee_ppk) 0 hm, fdiv_add_999_eq_ceil]
    · rw [if_neg hc] at h
      cases h

/-- C1: every swap batch that `_verify_equation_balanced` accepts satisfies
`Σ inputs.amount − fees(inputs) − Σ outputs.amount = 0`, with
`fees(inputs) = ceil(Σ input_fee_ppk / 1000)` (ceiling rounding, stated
through `fees_spec`); and every batch violating the equation is rejected. -/
theorem verify_equation_balanced_spec (maxOrder : Nat) (keysets : Keysets)
    (proofs : List Proof) (outs : List BlindedMessage) :
    (verify_equation_balanced maxOrder keysets proofs outs = .ok () →
      (proofs.map (fun p => p.amount)).sum - fees_spec keysets proofs
        - (outs.map (fun o => o.amount)).sum = 0) ∧
    ((proofs.map (fun p => p.amount)).sum - fees_spec keysets proofs
        - (outs.map (fun o => o.amount)).sum ≠ 0 →
      (verify_equation_balanced maxOrder keysets proofs outs).isOk = false) := by
  have main : verify_equation_balanced maxOrder keysets proofs outs = .ok () →
      (proofs.map (fun p => p.amount)).sum - fees_spec keysets proofs
        - (outs.map (fun o => o.amount)).sum = 0 := by
    intro h
    rw [verify_equation_balanced] at h
    by_cases hpe : proofs.isEmpty
    · rw [if_pos hpe] at h; cases h
    rw [if_neg hpe] at h
    by_cases hoe : outs.isEmpty
    · rw [if_pos hoe] at h; cases h
    rw [if_neg hoe] at h
    cases hu : verify_units_match keysets proofs outs with
    | error e => rw [hu] at h; cases h
    | ok u =>
      rw [hu] at h
      dsimp only at h
      cases hin : mapE (fun p => verify_amount maxOrder p.amount) proofs with
      | error e => rw [hin] at h; cases h
      | ok ins =>
        rw [hin] at h
        dsimp only at h
        cases hf : get_fees_for_proofs keysets proofs with
        | error e => rw [hf] at h; cases h
        | ok fees =>
          rw [hf] at h
          dsimp only at h
          cases hout : mapE (fun o => verify_amount maxOrder o.amount) outs with
          | error e => rw [hout] at h; cases h
          | ok outAmts =>
            rw [hout] at h
            dsimp only at h
            by_cases hb : outAmts.sum + fees - ins.sum = 0
            · rw [mapE_verify_amount (fun p => p.amount) proofs ins hin] at hb
              rw [mapE_verify_amount (fun o => o.amount) outs outAmts hout] at hb
              rw [get_fees_ok hf] at hb
              omega
            · rw [if_neg hb] at h; cases h
  refine ⟨main, fun hne => ?_⟩
  cases hv : verify_equation_balanced maxOrder keysets proofs outs with
  | error e => simp
  | ok u =>
    cases u
    exact absurd (main hv) hne

/-- C1 witness: a concrete accepted batch (one 2-sat input with
`input_fee_ppk = 100`, one 1-sat output) satisfies the balance equation. -/
theorem verify_equation_balanced_spec_witness :
    (([⟨"k", 2, some "s1", "c1"⟩] : List Proof).map (fun p => p.amount)).sum
      - fees_spec [("k", ⟨"sat", 100, true⟩)] [⟨"k", 2, some "s1", "c1"⟩]
      - (([⟨1, "k", "b1"⟩] : List BlindedMessage).map (fun o => o.amount)).sum = 0 :=
  (verify_equation_balanced_spec 64 [("k", ⟨"sat", 100, true⟩)]
    [⟨"k", 2, some "s1", "c1"⟩] [⟨1, "k", "b1"⟩]).1 (by rfl)

theorem verify_amount_isOk (maxOrder : Nat) (x : Int) :
    (verify_amount maxOrder x).isOk = true ↔ 0 < x ∧ x < 2 ^ maxOrder := by
  unfold verify_amount
  by_cases h : 0 < x ∧ x < 2 ^ maxOrder <;> simp [h]

/-- C4 (amended): `_verify_outputs` on a non-empty batch succeeds iff all
outputs share the first output's keyset id, that keyset is known and
active, every output amount lies in `(0, 2^MAX_ORDER)` (not: is a power of
two), the `B_` values are pairwise distinct, and none is already in the
issued-signature ledger.  In particular each failing condition makes it
raise a transaction error and sign nothing. -/
theorem verify_outputs_ok_iff (maxOrder : Nat) (keysets : Keysets) (issued : List String)
    (o0 : BlindedMessage) (rest : List BlindedMessage) :
    verify_outputs maxOrder keysets issued (o0 :: rest) = .ok () ↔
      ((∀ o ∈ o0 :: rest, o.id = o0.id) ∧
       (∃ ks, List.lookup o0.id keysets = some ks ∧ ks.active = true) ∧
       (∀ o ∈ o0 :: rest, 0 < o.amount ∧ o.amount < 2 ^ maxOrder) ∧
       ((o0 :: rest).map (fun o => o.B_)).Nodup ∧
       (∀ o ∈ o0 :: rest, o.B_ ∉ issued)) := by
  unfold verify_outputs
  dsimp only
  by_cases h1 : ((o0 :: rest).all fun o => o.id == o0.id) = true
  case neg =>
    rw [if_neg h1]
    apply iff_of_false (by simp)
    rintro ⟨ha, -⟩
    exact h1 (List.all_eq_true.mpr (fun o ho => beq_iff_eq.mpr (ha o ho)))
  case pos =>
    rw [if_pos h1]
    cases hl : List.lookup o0.id keysets with
    | none =>
      apply iff_of_false (by simp)
      rintro ⟨-, ⟨ks, hks, -⟩, -⟩
      cases hks
    | some ks =>
      dsimp only
      by_cases h2 : ks.active = true
      case neg =>
        rw [if_neg h2]
        apply iff_of_false (by simp)
        rintro ⟨-, ⟨ks', hks', hact⟩, -⟩
        cases hks'
        exact h2 hact
      case pos =>
        rw [if_pos h2]
        cases hin : mapE (fun o => verify_amount maxOrder o.amount) (o0 :: rest) with
        | error e =>
          apply iff_of_false (by simp)
          rintro ⟨-, -, hamts, -⟩
          have hok : (mapE (fun o => verify_amount maxOrder o.amount) (o0 :: rest)).isOk
              = true :=
            (mapE_ok_iff _ _).mpr (fun o ho => (verify_amount_isOk _ _).mpr (hamts o ho))
          rw [hin] at hok
          exact absurd hok (by simp)
        | ok vs =>
          dsimp only
          by_cases h3 : verify_no_duplicate_outputs (o0 :: rest) = true
          case neg =>
            rw [if_neg h3]
            apply iff_of_false (by simp)
            rintro ⟨-, -, -, hnd, -⟩
            exact h3 (dedup_length_beq_iff.mpr hnd)
          case pos =>
            rw [if_pos h3]
            by_cases h4 :
                ((check_outputs_issued_before issued (o0 :: rest)).any fun b => b) = true
            case pos =>
              rw [if_pos h4]
              apply iff_of_false (by simp)
              rintro ⟨-, -, -, -, hiss⟩
              unfold check_outputs_issued_before at h4
              rcases List.any_eq_true.mp h4 with ⟨b, hb, hbb⟩
              rcases List.mem_map.mp hb with ⟨o, ho, rfl⟩
              exact hiss o ho (by simpa using hbb)
            case neg =>
              rw [if_neg h4]
              refine iff_of_true rfl ⟨?_, ⟨ks, rfl, h2⟩, ?_, ?_, ?_⟩
              · exact fun o ho => beq_iff_eq.mp (List.all_eq_true.mp h1 o ho)
              · intro o ho
                exact (verify_amount_isOk _ _).mp
                  ((mapE_ok_iff _ _).mp (by rw [hin]; simp) o ho)
              · exact dedup_length_beq_iff.mp h3
              · intro o ho hmem
                apply h4
                unfold check_outputs_issued_before
                exact List.any_eq_true.mpr
                  ⟨issued.contains o.B_, List.mem_map.mpr ⟨o, ho, rfl⟩, by simpa using hmem⟩

/-- C4 counterexample: a single output of amount 3 (not a power of two)
passes `_verify_outputs` against an active keyset and an empty ledger, so
output verification does not require power-of-two denominations. -/
theorem verify_outputs_amount_3_accepted :
    verify_outputs 64 [("k", ⟨"sat", 0, true⟩)] [] [⟨3, "k", "b"⟩] = .ok () ∧
    ¬ ∃ i : Nat, (3 : Int) = 2 ^ i := by
  constructor
  · rfl
  · rintro ⟨i, hi⟩
    cases i with
    | zero => norm_num at hi
    | succ k =>
      rw [pow_succ] at hi
      have h2 : (2 : Int) ∣ 3 := ⟨2 ^ k, by rw [hi]; ring⟩
      norm_num at h2

/-- The order `n` of the secp256k1 group
(`FFFFFFFF FFFFFFFF FFFFFFFF FFFFFFFE BAAEDCE6 AF48A03B BFD25E8C D0364141`). -/
def secpOrder : Nat :=
  115792089237316195423570985008687907852837564279074904382605163141518161494337

/-- A scalar (`PrivateKey` value): arithmetic modulo the secp256k1 group
order, as performed by the library's `tweak_add` / `tweak_mul`. -/
abbrev Scalar := ZMod secpOrder

section BDHKE

/-!
The secp256k1 point arithmetic used by `cashu/core/b_dhke.py` and
`cashu/core/crypto/b_dhke.py` lives in the external `secp256k1` C library,
not in this repository.  Modelled from the spec (§4.1: "All scalar
arithmetic is modulo the secp256k1 group order"): the points form an
additive commutative group on which scalars `mod n` act, i.e. a module
over `ZMod n`; the generator `G` and the hash functions
(`hash_to_curve`, `hash_e`, which wrap SHA-256 from `hashlib`) are
parameters.
-/

variable {G : Type} [AddCommGroup G] [Module Scalar G] [DecidableEq G]

/-- `P.mult(a)`: scalar multiplication of a point by a private key. -/
def mult (P : G) (a : Scalar) : G := a • P

/-- `step1_alice` (`cashu/core/crypto/b_dhke.py`): `Y =
hash_to_curve(secret)`, `B_ = Y + r.pubkey` (`r.pubkey = r·G`); returns
`(B_, r)`. -/
def step1_alice (hash_to_curve : String → G) (g : G) (secret_msg : String) (r : Scalar) :
    G × Scalar :=
  let Y := hash_to_curve secret_msg
  (Y + mult g r, r)

/-- `step2_bob` (`cashu/core/crypto/b_dhke.py`): `C_ = B_.mult(a)`. -/
def step2_bob (B_ : G) (a : Scalar) : G := mult B_ a

/-- `step3_alice` (`cashu/core/b_dhke.py` and
`cashu/core/crypto/b_dhke.py`): `C = C_ - A.mult(r)`. -/
def step3_alice (C_ : G) (r : Scalar) (A : G) : G := C_ - mult A r

/-- `verify` (`cashu/core/crypto/b_dhke.py`): recompute
`Y = hash_to_curve(secret)` and test `C == Y.mult(a)`. -/
def verify (hash_to_curve : String → G) (a : Scalar) (C : G) (secret_msg : String) : Bool :=
  let Y := hash_to_curve secret_msg
  C == mult Y a

/-- `step2_bob_dleq` (`cashu/core/b_dhke.py`): nonce `p`, `R1 = p·G`,
`R2 = B_.mult(p)`, `C_ = B_.mult(a)`, `K = a.pubkey`,
`e = hash_e(R1, R2, K, C_)`, `s = p.tweak_add(a.tweak_mul(e))`
(`= p + a·e mod n`).  `hash_e` (serialization plus SHA-256 over external
`hashlib`) is a parameter. -/
def step2_bob_dleq (hash_e : G → G → G → G → Scalar) (g : G) (B_ : G) (a p : Scalar) :
    Scalar × Scalar :=
  let R1 := mult g p
  let R2 := mult B_ p
  let C_ := mult B_ a
  let K := mult g a
  let e := hash_e R1 R2 K C_
  (e, p + a * e)

/-- `alice_verify_dleq` (`cashu/core/b_dhke.py`): `R1 = s·G - A.mult(e)`,
`R2 = B_.mult(s) - C_.mult(e)`, accept iff `e == hash_e(R1, R2, A, C_)`. -/
def alice_verify_dleq (hash_e : G → G → G → G → Scalar) (g : G) (e s : Scalar)
    (A B_ C_ : G) : Bool :=
  let R1 := mult g s - mult A e
  let R2 := mult B_ s - mult C_ e
  e == hash_e R1 R2 A C_

/-- C2: for every secret, blinding factor `r` and key `a` with
`A = a·G`, unblinding the promise gives `C = a·hash_to_curve(secret)` and
`verify(a, C, secret)` returns true. -/
theorem bdhke_round_trip (hash_to_curve : String → G) (g : G) (secret_msg : String)
    (r a : Scalar) :
    step3_alice (step2_bob (step1_alice hash_to_curve g secret_msg r).1 a) r (mult g a)
      = mult (hash_to_curve secret_msg) a ∧
    verify hash_to_curve a
      (step3_alice (step2_bob (step1_alice hash_to_curve g secret_msg r).1 a) r (mult g a))
      secret_msg = true := by
  have key : step3_alice (step2_bob (step1_alice hash_to_curve g secret_msg r).1 a) r
      (mult g a) = mult (hash_to_curve secret_msg) a := by
    simp only [step1_alice, step2_bob, step3_alice, mult]
    module
  refine ⟨key, ?_⟩
  unfold verify
  rw [key]
  exact beq_self_eq_true' _

/-- C5: DLEQ completeness — the transcript `(e, s)` produced by
`step2_bob_dleq` always passes `alice_verify_dleq` against `A = a·G` and
`C_ = a·B_`. -/
theorem dleq_transcript_complete (hash_e : G → G → G → G → Scalar) (g B_ : G)
    (a p : Scalar) :
    alice_verify_dleq hash_e g (step2_bob_dleq hash_e g B_ a p).1
      (step2_bob_dleq hash_e g B_ a p).2 (mult g a) B_ (mult B_ a) = true := by
  simp only [step2_bob_dleq, alice_verify_dleq, mult]
  set e := hash_e (p • g) (p • B_) (a • g) (a • B_) with he
  have hR1 : (p + a * e) • g - e • (a • g) = p • g := by module
  have hR2 : (p + a * e) • B_ - e • (a • B_) = p • B_ := by module
  rw [hR1, hR2, ← he]
  exact beq_self_eq_true' _

end BDHKE

/-- `LedgerEventManager.MAX_CLIENTS` (`cashu/mint/events/events.py`). -/
def MAX_CLIENTS : Nat := 1000

/-- `LedgerEventManager.add_client` (`cashu/mint/events/events.py`):
return `False` and change nothing when `len(clients) >= MAX_CLIENTS`,
otherwise append the client and return `True`.  The subscriber list is
embedded as an explicit argument and the mutation as the returned list. -/
def add_client {α : Type} (clients : List α) (client : α) : Bool × List α :=
  if MAX_CLIENTS ≤ clients.length then (false, clients)
  else (true, clients ++ [client])

/-- `LedgerEventManager.remove_client` (`cashu/mint/events/events.py`):
`self.clients.remove(client)` removes the first occurrence and raises
`ValueError` when the client is not registered. -/
def remove_client {α : Type} [DecidableEq α] (clients : List α) (client : α) :
    Except Err (List α) :=
  if client ∈ clients then .ok (clients.erase client) else .error .valueError

/-- C9: the subscriber list never grows beyond `MAX_CLIENTS`: starting
from at most `MAX_CLIENTS` clients, `add_client` keeps the bound (and
refuses, returning `False` and adding nothing, when the list is full),
and `remove_client` keeps the bound. -/
theorem event_clients_bounded {α : Type} [DecidableEq α] (clients : List α) (client : α)
    (h : clients.length ≤ MAX_CLIENTS) :
    (add_client clients client).2.length ≤ MAX_CLIENTS ∧
    (clients.length = MAX_CLIENTS → add_client clients client = (false, clients)) ∧
    (∀ res, remove_client clients client = .ok res → res.length ≤ MAX_CLIENTS) := by
  refine ⟨?_, ?_, ?_⟩
  · unfold add_client
    by_cases hc : MAX_CLIENTS ≤ clients.length
    · rw [if_pos hc]
      exact h
    · rw [if_neg hc]
      simp only [List.length_append, List.length_cons, List.length_nil]
      omega
  · intro he
    unfold add_client
    rw [if_pos (le_of_eq he.symm)]
  · intro res hres
    unfold remove_client at hres
    split at hres
    · cases hres
      exact le_trans (clients.erase_sublist client).length_le h
    · cases hres

/-- C9 witness: adding to an empty subscriber list keeps the bound. -/
theorem event_clients_bounded_witness :
    (add_client ([] : List String) "client").2.length ≤ MAX_CLIENTS :=
  (event_clients_bounded ([] : List String) "client" (by decide)).1

/-- Modelled from the spec: `calculate_number_of_blank_outputs`
(`cashu/core/helpers.py`) is not in the tree — only its unit tests
(`tests/test_core.py`) are.  Spec §4.9: a fee reserve `F` yields
`ceil(log2(F))` blank outputs with a minimum of one; the tests fix
`F = 0 ↦ 0`, `F = 1 ↦ 1`, `F = 1000 ↦ 10`, and `F < 0 ↦ AssertionError`.
`ceil(log2 ·)` is `Nat.clog 2`. -/
def calculate_number_of_blank_outputs (fee_reserve_sat : Int) : Except Err Nat :=
  if fee_reserve_sat < 0 then .error (.assertionError "Fee reserve cannot be negative.")
  else if fee_reserve_sat = 0 then .ok 0
  else .ok (max (Nat.clog 2 fee_reserve_sat.toNat) 1)

theorem clog_two_1000 : Nat.clog 2 1000 = 10 := by
  have hle : Nat.clog 2 1000 ≤ 10 := by
    rw [← Nat.le_pow_iff_clog_le (by norm_num)]
    norm_num
  have hnine : ¬ Nat.clog 2 1000 ≤ 9 := by
    rw [← Nat.le_pow_iff_clog_le (by norm_num)]
    norm_num
  omega

/-- C8 counterexample: the claimed formula `ceil(log2(max(F, 1)))` gives 0
at `F = 1` while the function (per its own tests, which the claim also
asserts) yields 1; and at `F = 0` the function yields 0 blank outputs,
not "at least one". -/
theorem blank_outputs_claim_fails :
    calculate_number_of_blank_outputs 1 = .ok 1 ∧ Nat.clog 2 (max 1 1) = 0 ∧
    calculate_number_of_blank_outputs 0 = .ok 0 ∧ ¬ (1 : Nat) ≤ 0 := by
  refine ⟨?_, by simp [Nat.clog_one_right], by rfl, by omega⟩
  unfold calculate_number_of_blank_outputs
  norm_num [Nat.clog_one_right]

/-- C8 (amended): for `F ≥ 1` the blank-output count is
`max(ceil(log2 F), 1)`, hence at least one; `F = 0` yields 0 blank
outputs; `F = 1000` yields 10 and `F = 1` yields 1; negative `F` is
rejected with an assertion error. -/
theorem calculate_number_of_blank_outputs_spec (F : Int) :
    (1 ≤ F → calculate_number_of_blank_outputs F = .ok (max (Nat.clog 2 F.toNat) 1) ∧
      1 ≤ max (Nat.clog 2 F.toNat) 1) ∧
    calculate_number_of_blank_outputs 0 = .ok 0 ∧
    calculate_number_of_blank_outputs 1000 = .ok 10 ∧
    calculate_number_of_blank_outputs 1 = .ok 1 ∧
    (F < 0 → (calculate_number_of_blank_outputs F).isOk = false) := by
  refine ⟨?_, by rfl, ?_, ?_, ?_⟩
  · intro hF
    unfold calculate_number_of_blank_outputs
    rw [if_neg (by omega), if_neg (by omega)]
    exact ⟨rfl, le_max_right _ 1⟩
  · unfold calculate_number_of_blank_outputs
    norm_num
    rw [show ((1000 : Int).toNat) = 1000 from rfl, clog_two_1000]
    decide
  · unfold calculate_number_of_blank_outputs
    norm_num [Nat.clog_one_right]
  · intro hF
    unfold calculate_number_of_blank_outputs
    rw [if_pos hF]
    simp

/-- C8 witness: instantiating the amended claim at `F = 1000` discharges
its `1 ≤ F` hypothesis and yields at least one blank output. -/
theorem calculate_number_of_blank_outputs_spec_witness :
    calculate_number_of_blank_outputs 1000
        = .ok (max (Nat.clog 2 (1000 : Int).toNat) 1) ∧
      1 ≤ max (Nat.clog 2 (1000 : Int).toNat) 1 :=
  (calculate_number_of_blank_outputs_spec 1000).1 (by norm_num)

/-- The backend payment status of the spec's Lightning contract (§4.7):
`pay_invoice → { status: PAID | FAILED | PENDING, ... }`. -/
inductive BackendStatus where
  | PAID
  | FAILED
  | PENDING
  deriving DecidableEq, Repr

/-- `PaymentResponse` (`cashu/lightning/base.py`, not in the tree): the
fields `blink.py` constructs. -/
structure PaymentResponse where
  ok : Option Bool
  checking_id : Option String
  fee : Option Int
  error_message : Option String
  deriving DecidableEq, Repr

/-- Modelled from the spec: `cashu/lightning/base.py` is not in the tree;
per §4.7 the tri-state `ok` field of a `PaymentResponse` carries the
payment status — `True ↦ PAID`, `False ↦ FAILED`, `None ↦ PENDING`
("Unknown-status on `pay_invoice` must be returned as `PENDING`, never
`FAILED`"). -/
def response_status (ok : Option Bool) : BackendStatus :=
  match ok with
  | some true => .PAID
  | some false => .FAILED
  | none => .PENDING

/-- What `BlinkWallet.pay_invoice` observes from its HTTPS POST to the
Blink GraphQL endpoint: either a raised exception (transport error,
timeout, or `raise_for_status` on a non-2xx reply) or a decoded reply
carrying the `lnInvoicePaymentSend` status string and settlement fee. -/
inductive HttpOutcome where
  | raised (msg : String)
  | reply (status : String) (settlementFee : Int)

/-- `BlinkWallet.payment_execution_statuses` (`cashu/lightning/blink.py`):
`{"SUCCESS": True, "ALREADY_PAID": None}`. -/
def payment_execution_statuses : List (String × Option Bool) :=
  [("SUCCESS", some true), ("ALREADY_PAID", none)]

/-- `BlinkWallet.payment_statuses` (`cashu/lightning/blink.py`):
`{"SUCCESS": True, "PENDING": None, "FAILURE": False}` (used by
`get_payment_status`, not by `pay_invoice`). -/
def payment_statuses : List (String × Option Bool) :=
  [("SUCCESS", some true), ("PENDING", none), ("FAILURE", some false)]

/-- `BlinkWallet.pay_invoice` (`cashu/lightning/blink.py`): on a raised
request exception it returns `PaymentResponse(ok=False,
error_message=str(e))`; on a reply it maps the status string through
`payment_execution_statuses` (a `KeyError` for unrecognized statuses
propagates), takes the settlement fee, and uses the quote's request as
`checking_id`. -/
def blink_pay_invoice (quote_request : String) (http : HttpOutcome) :
    Except Err PaymentResponse :=
  match http with
  | .raised msg =>
    .ok { ok := some false, checking_id := none, fee := none, error_message := some msg }
  | .reply status fee =>
    match List.lookup status payment_execution_statuses with
    | none => .error .keyError
    | some paid =>
      .ok { ok := paid, checking_id := some quote_request, fee := some fee,
            error_message := if paid = none then some "Invoice already paid." else none }

/-- C3: `blink.pay_invoice` does NOT return `PENDING` on unknown
outcomes — a raised transport error or timeout (whose true outcome is
unknown) yields `ok=False`, which is the `FAILED` status, and an
unrecognized backend status string raises `KeyError` instead of returning
a response. -/
theorem blink_pay_invoice_unknown_becomes_failed (msg quote_request : String) (fee : Int) :
    blink_pay_invoice quote_request (.raised msg)
      = .ok { ok := some false, checking_id := none, fee := none,
              error_message := some msg } ∧
    response_status (some false) = .FAILED ∧
    response_status (some false) ≠ .PENDING ∧
    blink_pay_invoice quote_request (.reply "FAILURE" fee) = .error .keyError := by
  exact ⟨rfl, rfl, by decide, rfl⟩

/-- Python keyword-argument binding for a call made with keyword arguments
only: it succeeds iff every supplied keyword names a declared parameter
and every parameter without a default is supplied; otherwise the call
raises `TypeError` before the function body runs. -/
def kwargs_bind (params required supplied : List String) : Bool :=
  supplied.all (fun k => params.contains k) && required.all (fun k => supplied.contains k)

/-- Keyword-only parameters of `LedgerCrudSqlite.get_lightning_invoice`
(`cashu/mint/crud.py`): `db`, `hash`, `conn` — `conn` has a default. -/
def get_lightning_invoice_params : List String := ["db", "hash", "conn"]

def get_lightning_invoice_required : List String := ["db", "hash"]

/-- Keyword-only parameters of `LedgerCrudSqlite.update_lightning_invoice`
(`cashu/mint/crud.py`): `db`, `hash`, `issued`, `conn` — `conn` has a
default. -/
def update_lightning_invoice_params : List String := ["db", "hash", "issued", "conn"]

def update_lightning_invoice_required : List String := ["db", "hash", "issued"]

/-- One row of the `invoices` table (`Invoice` in `cashu/core/base.py`,
the fields read by `_check_lightning_invoice`). -/
structure InvoiceRow where
  hash : String
  amount : Int
  issued : Bool
  payment_hash : Option String
  deriving DecidableEq, Repr

/-- `LedgerCrudSqlite.get_lightning_invoice` (`cashu/mint/crud.py`),
guarded by the keyword binding of the supplied argument names: select the
invoice row by `hash`. -/
def sqlite_get_lightning_invoice (supplied : List String) (db : List InvoiceRow)
    (hash : String) : Except Err (Option InvoiceRow) :=
  if kwargs_bind get_lightning_invoice_params get_lightning_invoice_required supplied then
    .ok (db.find? (fun r => r.hash == hash))
  else .error .typeError

/-- `LedgerCrudSqlite.update_lightning_invoice` (`cashu/mint/crud.py`),
guarded by the keyword binding of the supplied argument names: set the
`issued` flag on the row with the given `hash`. -/
def sqlite_update_lightning_invoice (supplied : List String) (db : List InvoiceRow)
    (hash : String) (issued : Bool) : Except Err (List InvoiceRow) :=
  if kwargs_bind update_lightning_invoice_params update_lightning_invoice_required
      supplied then
    .ok (db.map (fun r => if r.hash == hash then { r with issued := issued } else r))
  else .error .typeError

/-- `LedgerLightning._check_lightning_invoice` (`cashu/mint/lightning.py`)
with its `crud` set to `LedgerCrudSqlite`: the caller invokes
`crud.get_lightning_invoice(id=id, db=..., conn=...)` and
`crud.update_lightning_invoice(id=id, issued=..., db=..., conn=...)` —
keyword name `id`, not `hash`.  The invoice table is threaded explicitly;
the pair returned holds the outcome and the table after the call
(unchanged when an exception escapes before any write). -/
def check_lightning_invoice (backend_paid : String → Option Bool)
    (db : List InvoiceRow) (amount : Int) (id : String) :
    Except Err Bool × List InvoiceRow :=
  match sqlite_get_lightning_invoice ["id", "db", "conn"] db id with
  | .error e => (.error e, db)
  | .ok none => (.error (.lightningError "invoice not found."), db)
  | .ok (some invoice) =>
    if invoice.issued then
      (.error (.lightningError "tokens already issued for this invoice."), db)
    else if invoice.amount < amount then
      (.error (.lightningError "requested amount too high"), db)
    else
      match invoice.payment_hash with
      | none => (.error (.assertionError "invoice has no payment hash."), db)
      | some payment_hash =>
        match sqlite_update_lightning_invoice ["id", "issued", "db", "conn"] db id true with
        | .error e => (.error e, db)
        | .ok db1 =>
          match backend_paid payment_hash with
          | some true => (.ok true, db1)
          | _ =>
            match sqlite_update_lightning_invoice ["id", "issued", "db", "conn"]
                db1 id false with
            | .error e => (.error e, db1)
            | .ok db2 => (.error .invoiceNotPaidError, db2)

/-- C10: with the sqlite crud, `_check_lightning_invoice` always raises
`TypeError` at its first crud call (keyword `id` does not bind against
the `hash` parameter), never returns `True`, and leaves the invoice table
untouched — no invoice can be marked issued or reported paid. -/
theorem check_lightning_invoice_always_raises (backend_paid : String → Option Bool)
    (db : List InvoiceRow) (amount : Int) (id : String) :
    check_lightning_invoice backend_paid db amount id = (.error .typeError, db) := by
  rfl
